import Mathlib

/-!
# DisplayPanel

A verification development for `src/display-panel.h`: rectangular panels that
are drawn on an LCD through the esphome display component and that can be
hit-tested against touch coordinates.

Machine integers.  The targets are the ESP32 and the ESP8266, where `int`,
`unsigned int` and `size_t` are all 32 bits wide.  A value of type
`unsigned int` is a natural number below `2 ^ 32`, a value of type `int` an
integer of `[-2 ^ 31, 2 ^ 31)`.  Every conversion and every unsigned
operation of the source is written out with an explicit reduction modulo
`2 ^ 32`.
-/

set_option autoImplicit false

namespace DisplayPanelSpec

/-! ## 32-bit arithmetic -/

/-- Conversion to `unsigned int` (the usual arithmetic conversion of an `int`
operand that meets an unsigned one, and the result of every unsigned
operation): the representative modulo `2 ^ 32`. -/
def toU32 (z : Int) : Nat := (z % 4294967296).toNat

/-- Conversion of an `unsigned int` value to `int`: values up to `INT_MAX`
are kept, larger ones are read in two's complement. -/
def toInt32 (n : Nat) : Int :=
  if n % 4294967296 < 2147483648 then ((n % 4294967296 : Nat) : Int)
  else ((n % 4294967296 : Nat) : Int) - 4294967296

/-- A value that an `int` can hold. -/
def IsInt32 (z : Int) : Prop := -2147483648 ≤ z ∧ z < 2147483648

instance (z : Int) : Decidable (IsInt32 z) := by unfold IsInt32; infer_instance

/-! ## External collaborators -/

/-- The value of an `esphome::Color`. -/
structure Color where
  raw : Nat
  deriving DecidableEq, Repr

/-- The font a `BaseFont *` points to, identified by its address. -/
structure BaseFont where
  addr : Nat
  deriving DecidableEq, Repr

/-- The image a non-null `BaseImage *` points to, identified by its address. -/
structure BaseImage where
  addr : Nat
  deriving DecidableEq, Repr

/-- The four `int` out-parameters of `BaseFont::measure`, named as
`printMulti` names its locals. -/
structure FontMeasure where
  width : Int
  x_offset : Int
  textHeight : Int
  height : Int
  deriving DecidableEq, Repr

/-- The font subsystem: what `font->measure(str, ...)` writes to its
out-parameters.  It is supplied by esphome, so it is a parameter here. -/
abbrev Measure := BaseFont → String → FontMeasure

/-- One `font->measure(str, ...)` call: the font it is made on and the string
that is measured. -/
structure MeasureCall where
  font : BaseFont
  text : String
  deriving DecidableEq, Repr

/-- The font subsystem, as the sequence of `measure` calls made on it so
far. -/
abbrev FontLog := List MeasureCall

/-- The two anchoring modes of `TextAlign` that the panel uses. -/
inductive TextAlign where
  | TOP_CENTER
  | CENTER
  deriving DecidableEq, Repr

/-- One call on the `esphome::display::Display`.  The coordinate arguments
are recorded as the 32-bit values of the argument expressions, which are all
of type `unsigned int` in the source; the display's methods declare them
`int`, so the display reads an argument `v` as `toInt32 v`. -/
inductive DisplayCall where
  | filled_rectangle (x y w h : Nat) (color : Color)
  | rectangle (x y w h : Nat) (color : Color)
  | image (x y : Nat) (image : BaseImage)
  | print (x y : Nat) (font : BaseFont) (color : Color) (align : TextAlign) (text : String)
  deriving DecidableEq, Repr

/-- The display, as the sequence of calls made on it so far. -/
abbrev Display := List DisplayCall

/-- A call of the background pass. -/
def DisplayCall.isBackground : DisplayCall → Bool
  | .filled_rectangle .. => true
  | .rectangle .. => true
  | _ => false

/-- A call of the content pass. -/
def DisplayCall.isContent : DisplayCall → Bool
  | .image .. => true
  | .print .. => true
  | _ => false

/-! ## The panel -/

/-- The fields of `class DisplayPanel`.  `font` is a pointer that the source
dereferences without a check; a panel whose font was never assigned is not
represented.  `image` is `none` for `NULL`. -/
structure DisplayPanel where
  x : Nat
  y : Nat
  w : Nat
  h : Nat
  max_x : Nat
  max_y : Nat
  enabled : Bool
  touchable : Bool
  fontHeightOffset : Int
  fontVertOffset : Int
  drawPanelOutline : Bool
  color : Color
  textColor : Color
  font : BaseFont
  image : Option BaseImage
  text : List String
  name : String
  tag : String
  deriving DecidableEq, Repr

namespace DisplayPanel

/-- The constructor `DisplayPanel(_x, _y, _w, _h)`: the sums are unsigned,
the other fields take their default member initialisers.  The source leaves
`font` unassigned; the model puts the font at address 0 there. -/
def new (_x _y _w _h : Nat) : DisplayPanel :=
  { x := _x, y := _y, w := _w, h := _h,
    max_x := (_x + _w) % 4294967296,
    max_y := (_y + _h) % 4294967296,
    enabled := true, touchable := true,
    fontHeightOffset := 0, fontVertOffset := 0,
    drawPanelOutline := false,
    color := ⟨0⟩, textColor := ⟨0⟩,
    font := ⟨0⟩, image := none, text := [],
    name := "", tag := "" }

/-- The C++ method `isTouchOnPanel(int tpX, int tpY)`.  Each comparison has
an `int` on the left and an `unsigned int` on the right, so the left operand
is converted to `unsigned int` first. -/
def isTouchOnPanel (p : DisplayPanel) (tpX tpY : Int) : Bool :=
  p.enabled &&
  p.touchable &&
  (decide (toU32 tpX ≥ p.x) && decide (toU32 tpX ≤ p.max_x)) &&
  (decide (toU32 tpY ≥ p.y) && decide (toU32 tpY ≤ p.max_y))

/-- The protected method `drawRect`: the background pass of one panel. -/
def drawRect (p : DisplayPanel) (display : Display) : Display :=
  if !p.enabled || p.w == 0 || p.h == 0 then
    display
  else
    let display := display ++ [DisplayCall.filled_rectangle p.x p.y p.w p.h p.color]
    if p.drawPanelOutline then
      display ++ [DisplayCall.rectangle p.x p.y p.w p.h p.textColor]
    else
      display

/-- The method `printMiddle`.  `(int) (w/2)` and `(int) (h/2)` are conversions
to `int`; `x + ...` and `y + ...` are unsigned additions.  The inner sum
`(int) (h/2) + fontVertOffset` is a signed addition, taken in the integers:
its only use is under an unsigned addition, which reduces it modulo
`2 ^ 32` as two's complement wrap-around would. -/
def printMiddle (p : DisplayPanel) (display : Display) (text : String) : Display :=
  display ++ [DisplayCall.print
    (toU32 ((p.x : Int) + toInt32 (p.w / 2)))
    (toU32 ((p.y : Int) + (toInt32 (p.h / 2) + p.fontVertOffset)))
    p.font p.textColor TextAlign.CENTER text]

/-- The `display.print` call in the body of the loop of `printMulti`, for the
counter value `lineNum`.  `y + topPadding + (lineNum * textHeight) +
fontVertOffset` is a left-to-right chain of unsigned additions that starts
from the unsigned `y`; the product `lineNum * textHeight` is signed and taken
in the integers (it is reduced modulo `2 ^ 32` by the addition it enters). -/
def printMultiCall (p : DisplayPanel) (topPadding textHeight lineNum : Int)
    (line : String) : DisplayCall :=
  DisplayCall.print
    (toU32 ((p.x : Int) + toInt32 (p.w / 2)))
    (toU32 ((toU32 ((toU32 ((p.y : Int) + topPadding) : Int)
        + lineNum * textHeight) : Int) + p.fontVertOffset))
    p.font p.textColor TextAlign.TOP_CENTER line

/-- The `for (auto &line : text)` loop of `printMulti`, with the counter
`lineNum`.  The local `printY` is never read. -/
def printMultiLoop (p : DisplayPanel) (topPadding textHeight : Int) :
    Int → List String → Display → Display
  | _, [], display => display
  | lineNum, line :: rest, display =>
    printMultiLoop p topPadding textHeight (lineNum + 1) rest
      (display ++ [printMultiCall p topPadding textHeight lineNum line])

/-- The value given to `int topPadding` by
`(h - (text.size() * (textHeight))) / 2`: `text.size()` is a `size_t`, so the
product, the difference and the quotient are unsigned, and the quotient is
then converted to `int`. -/
def topPaddingInit (h : Nat) (size : Nat) (textHeight : Int) : Int :=
  toInt32 (toU32 ((h : Int) - (toU32 ((size : Int) * (toU32 textHeight : Int)) : Int)) / 2)

/-- The method `printMulti`.  `textHeight += fontHeightOffset` is a signed
addition taken in the integers (every later use reduces it modulo
`2 ^ 32`). -/
def printMulti (measure : Measure) (p : DisplayPanel) (display : Display)
    (text : List String) : Display :=
  let textHeight : Int := (measure p.font "M").textHeight
  let textHeight : Int := textHeight + p.fontHeightOffset
  let topPadding : Int := topPaddingInit p.h text.length textHeight
  let topPadding : Int := if topPadding ≥ 0 then topPadding else 0
  printMultiLoop p topPadding textHeight 0 text display

/-- The effective line height `L`: the value of the local `textHeight` of
`printMulti` after `textHeight += fontHeightOffset`. -/
def lineHeight (measure : Measure) (p : DisplayPanel) : Int :=
  (measure p.font "M").textHeight + p.fontHeightOffset

/-- The method `drawImage`, which `drawImageOrText` calls only when `image`
is not `NULL`. -/
def drawImage (p : DisplayPanel) (display : Display) : Display :=
  match p.image with
  | some img => display ++ [DisplayCall.image p.x p.y img]
  | none => display

/-- The protected method `drawImageOrText`: the content pass of one panel.
The three cases on `text` are `text.size() == 1` (with `text[0]`),
`text.size() > 1` and neither. -/
def drawImageOrText (measure : Measure) (p : DisplayPanel) (display : Display) : Display :=
  if !p.enabled || p.w == 0 || p.h == 0 then
    display
  else if p.image.isSome then
    drawImage p display
  else
    match p.text with
    | [line] => printMiddle p display line
    | _ :: _ :: _ => printMulti measure p display p.text
    | [] => display

/-- The method `draw`. -/
def draw (measure : Measure) (p : DisplayPanel) (display : Display) : Display :=
  drawImageOrText measure p (drawRect p display)

/-- The static method `drawAllPanels`: two loops over the same list. -/
def drawAllPanels (measure : Measure) (display : Display) (panels : List DisplayPanel) :
    Display :=
  let display := panels.foldl (fun d panel => drawRect panel d) display
  panels.foldl (fun d panel => drawImageOrText measure panel d) display

/-- The method `printMulti` with its use of the font subsystem recorded: its
first statement is the call `font->measure("M", ...)`, the only `measure`
call of the class.  The display part is computed as in `printMulti`. -/
def printMultiLogged (measure : Measure) (p : DisplayPanel) (display : Display)
    (text : List String) (log : FontLog) : Display × FontLog :=
  let log := log ++ [{ font := p.font, text := "M" }]
  let textHeight : Int := (measure p.font "M").textHeight
  let textHeight : Int := textHeight + p.fontHeightOffset
  let topPadding : Int := topPaddingInit p.h text.length textHeight
  let topPadding : Int := if topPadding ≥ 0 then topPadding else 0
  (printMultiLoop p topPadding textHeight 0 text display, log)

/-- The method `drawImageOrText` with its uses of the font recorded.  The font
is used in two ways: `printMulti` measures with it (recorded in the log), and
`printMiddle` and `printMulti` hand the pointer to `display.print` (recorded
in the `print` call). -/
def drawImageOrTextLogged (measure : Measure) (p : DisplayPanel) (display : Display)
    (log : FontLog) : Display × FontLog :=
  if !p.enabled || p.w == 0 || p.h == 0 then
    (display, log)
  else if p.image.isSome then
    (drawImage p display, log)
  else
    match p.text with
    | [line] => (printMiddle p display line, log)
    | _ :: _ :: _ => printMultiLogged measure p display p.text log
    | [] => (display, log)

/-- The method `draw` with its uses of the font recorded; `drawRect` does not
mention the font. -/
def drawLogged (measure : Measure) (p : DisplayPanel) (display : Display)
    (log : FontLog) : Display × FontLog :=
  drawImageOrTextLogged measure p (drawRect p display) log

/-- What can go wrong inside `touchedPanel`. -/
inductive Fault where
  | textIndexOutOfRange
  deriving DecidableEq, Repr

/-- The loop of `touchedPanel` from position `i` of the list on.  A panel
pointer is represented by the position of the panel in the list; `none` is
`NULL`.  `ESP_LOGD` is a macro of the esphome logger; when debug logging is
compiled in (`logDebug`, the esphome default) its arguments are evaluated,
among them `panel->text[0]`, an unchecked index into the vector.  The
message itself goes to the logger and is not recorded. -/
def touchedPanelFrom (logDebug : Bool) (tpX tpY : Int) :
    Nat → List DisplayPanel → Except Fault (Option Nat)
  | _, [] => .ok none
  | i, panel :: rest =>
    if panel.isTouchOnPanel tpX tpY then
      if logDebug then
        match panel.text with
        | _ :: _ => .ok (some i)
        | [] => .error Fault.textIndexOutOfRange
      else
        .ok (some i)
    else
      touchedPanelFrom logDebug tpX tpY (i + 1) rest

/-- The static method `touchedPanel`. -/
def touchedPanel (logDebug : Bool) (panels : List DisplayPanel) (tpX tpY : Int) :
    Except Fault (Option Nat) :=
  touchedPanelFrom logDebug tpX tpY 0 panels

end DisplayPanel

/-! ## The host program's view -/

/-- The state that the core operations work on: the panel objects of the
application (a panel pointer is a position in `panels`) and the display. -/
structure World where
  panels : List DisplayPanel
  display : Display
  deriving DecidableEq, Repr

/-- A call of one of the core operations.  `drawAllPanels` and `touchedPanel`
receive their vector of panel pointers as a list of positions. -/
inductive Op where
  | draw (panel : Nat)
  | isTouchOnPanel (panel : Nat) (tpX tpY : Int)
  | drawAllPanels (panels : List Nat)
  | touchedPanel (panels : List Nat) (tpX tpY : Int)
  deriving DecidableEq, Repr

/-- The panels a vector of panel pointers points to. -/
def World.resolve (s : World) (pointers : List Nat) : List DisplayPanel :=
  pointers.filterMap (fun i => s.panels[i]?)

/-- The effect of one call on the state.  The bodies of `draw`,
`isTouchOnPanel`, `drawAllPanels` and `touchedPanel` (and of the protected
methods they call) contain no assignment to a field of a panel: the drawing
operations write to the display only, the two hit tests write nothing.  A
call on a position that holds no panel does nothing. -/
def step (measure : Measure) (logDebug : Bool) :
    Op → World → Except DisplayPanel.Fault World
  | .draw i, s =>
    match s.panels[i]? with
    | some panel => .ok { panels := s.panels, display := panel.draw measure s.display }
    | none => .ok s
  | .isTouchOnPanel _ _ _, s => .ok s
  | .drawAllPanels pointers, s =>
    .ok { panels := s.panels,
          display := DisplayPanel.drawAllPanels measure s.display (s.resolve pointers) }
  | .touchedPanel pointers tpX tpY, s =>
    match DisplayPanel.touchedPanel logDebug (s.resolve pointers) tpX tpY with
    | .ok _ => .ok s
    | .error e => .error e

/-- A sequence of calls, up to the first one that faults. -/
def run (measure : Measure) (logDebug : Bool) :
    List Op → World → Except DisplayPanel.Fault World
  | [], s => .ok s
  | op :: ops, s =>
    match step measure logDebug op s with
    | .ok s2 => run measure logDebug ops s2
    | .error e => .error e

/-- A font subsystem for examples: every measurement reports the given text
height (width 8, no offset, line height `textHeight + 2`). -/
def fixedMeasure (textHeight : Int) : Measure :=
  fun _ _ => { width := 8, x_offset := 0, textHeight := textHeight, height := textHeight + 2 }

/-! ## Arithmetic lemmas -/

theorem toU32_lt (z : Int) : toU32 z < 4294967296 := by
  unfold toU32; omega

theorem toU32_eq_of_range (z : Int) (h0 : 0 ≤ z) (h1 : z < 4294967296) :
    (toU32 z : Int) = z := by
  unfold toU32; omega

theorem toU32_neg_ge (z : Int) (h0 : -2147483648 ≤ z) (h1 : z < 0) :
    2147483648 ≤ toU32 z := by
  unfold toU32; omega

theorem toInt32_toU32 (z : Int) (h : IsInt32 z) : toInt32 (toU32 z) = z := by
  unfold IsInt32 at h
  unfold toInt32 toU32
  split <;> omega

theorem toInt32_of_lt (n : Nat) (h : n < 2147483648) : toInt32 n = n := by
  unfold toInt32
  split <;> omega

theorem toU32_add_toInt32 (a : Int) (n : Nat) :
    toU32 (a + toInt32 n) = toU32 (a + (n : Int)) := by
  unfold toU32 toInt32
  split <;> omega

theorem toU32_middle_y (y : Nat) (n : Nat) (v : Int) :
    toU32 ((y : Int) + (toInt32 n + v)) = toU32 ((y : Int) + (n : Int) + v) := by
  unfold toU32 toInt32
  split <;> omega

theorem toU32_chain (y : Nat) (tp m v : Int) :
    toU32 ((toU32 ((toU32 ((y : Int) + tp) : Int) + m) : Int) + v)
      = toU32 ((y : Int) + tp + m + v) := by
  unfold toU32
  omega

/-- The unsigned product `text.size() * textHeight` is congruent to the
integer product modulo `2 ^ 32`. -/
theorem toU32_mul_toU32 (n L : Int) :
    ((toU32 (n * (toU32 L : Int)) : Nat) : Int) % 4294967296 = (n * L) % 4294967296 := by
  have h1 : ((toU32 L : Nat) : Int) = L % 4294967296 := by unfold toU32; omega
  have h2 : ((toU32 (n * (toU32 L : Int)) : Nat) : Int)
      = (n * (toU32 L : Int)) % 4294967296 := by unfold toU32; omega
  rw [h2, h1, Int.emod_emod_of_dvd _ (dvd_refl _), Int.mul_emod,
    Int.emod_emod_of_dvd _ (dvd_refl _), ← Int.mul_emod]

/-- When the text block fits the panel, the unsigned computation of the top
padding gives the integer `(h - size * L) / 2`. -/
theorem topPaddingInit_of_fits (h size : Nat) (L : Int)
    (hfit : (size : Int) * L ≤ (h : Int))
    (hrange : (h : Int) - (size : Int) * L < 4294967296) :
    DisplayPanel.topPaddingInit h size L = ((h : Int) - (size : Int) * L) / 2 := by
  have hm := toU32_mul_toU32 (size : Int) L
  unfold DisplayPanel.topPaddingInit
  generalize (toU32 ((size : Int) * (toU32 L : Int)) : Nat) = u at hm ⊢
  generalize (size : Int) * L = m at hm hfit hrange ⊢
  unfold toInt32 toU32
  split <;> omega

/-- The value given to `int topPadding` is never negative. -/
theorem topPaddingInit_range (h size : Nat) (L : Int) :
    0 ≤ DisplayPanel.topPaddingInit h size L ∧
      DisplayPanel.topPaddingInit h size L < 2147483648 := by
  unfold DisplayPanel.topPaddingInit
  generalize (toU32 ((size : Int) * (toU32 L : Int)) : Nat) = u
  unfold toInt32 toU32
  split <;> omega

/-! ## Hit-testing lemmas -/

namespace DisplayPanel

theorem isTouchOnPanel_eq_true_iff (p : DisplayPanel) (tpX tpY : Int) :
    p.isTouchOnPanel tpX tpY = true ↔
      p.enabled = true ∧ p.touchable = true ∧
      (p.x ≤ toU32 tpX ∧ toU32 tpX ≤ p.max_x) ∧
      (p.y ≤ toU32 tpY ∧ toU32 tpY ≤ p.max_y) := by
  simp [isTouchOnPanel, and_assoc]

/-- One coordinate of the range test: with a non-negative touch coordinate,
or with a panel bound that an `int` can hold, the unsigned comparisons agree
with the comparisons of the integer values. -/
theorem coord_test_iff (lo hi : Nat) (t : Int) (ht : IsInt32 t)
    (h : 0 ≤ t ∨ hi < 2147483648) :
    (lo ≤ toU32 t ∧ toU32 t ≤ hi) ↔ ((lo : Int) ≤ t ∧ t ≤ (hi : Int)) := by
  unfold IsInt32 at ht
  unfold toU32
  omega

theorem touchedPanelFrom_ok_some (logDebug : Bool) (tpX tpY : Int) :
    ∀ (panels : List DisplayPanel) (i k : Nat),
      touchedPanelFrom logDebug tpX tpY i panels = .ok (some k) →
      ∃ j p, k = i + j ∧ panels[j]? = some p ∧ p.isTouchOnPanel tpX tpY = true ∧
        ∀ j2 q, j2 < j → panels[j2]? = some q → q.isTouchOnPanel tpX tpY = false := by
  intro panels
  induction panels with
  | nil => intro i k h; simp [touchedPanelFrom] at h
  | cons a rest ih =>
    intro i k h
    unfold touchedPanelFrom at h
    by_cases ha : a.isTouchOnPanel tpX tpY = true
    · have hk : k = i := by
        rw [if_pos ha] at h
        cases logDebug <;> cases hta : a.text <;> simp_all
      refine ⟨0, a, by omega, by simp, ha, ?_⟩
      intro j2 q hj; omega
    · rw [if_neg ha] at h
      obtain ⟨j, p, hk, hp, htp, hbefore⟩ := ih (i + 1) k h
      refine ⟨j + 1, p, by omega, by simpa using hp, htp, ?_⟩
      intro j2 q hj hq
      cases j2 with
      | zero =>
        simp at hq
        subst hq
        simpa using ha
      | succ j3 =>
        simp at hq
        exact hbefore j3 q (by omega) hq

theorem touchedPanelFrom_ok_none (logDebug : Bool) (tpX tpY : Int) :
    ∀ (panels : List DisplayPanel) (i : Nat),
      touchedPanelFrom logDebug tpX tpY i panels = .ok none ↔
      ∀ p ∈ panels, p.isTouchOnPanel tpX tpY = false := by
  intro panels
  induction panels with
  | nil => intro i; simp [touchedPanelFrom]
  | cons a rest ih =>
    intro i
    unfold touchedPanelFrom
    by_cases ha : a.isTouchOnPanel tpX tpY = true
    · rw [if_pos ha]
      cases logDebug <;> cases hta : a.text <;> simp_all
    · rw [if_neg ha, ih (i + 1)]
      simp at ha
      simp [ha]

/-- The result of `touchedPanel` whenever the index `text[0]` is in range at
the first match (or is not evaluated): the position of the first panel that
passes `isTouchOnPanel`. -/
theorem touchedPanelFrom_first_match (logDebug : Bool) (tpX tpY : Int) :
    ∀ (panels : List DisplayPanel) (i j : Nat) (p : DisplayPanel),
      panels[j]? = some p → p.isTouchOnPanel tpX tpY = true →
      (∀ j2 q, j2 < j → panels[j2]? = some q → q.isTouchOnPanel tpX tpY = false) →
      (logDebug = false ∨ p.text ≠ []) →
      touchedPanelFrom logDebug tpX tpY i panels = .ok (some (i + j)) := by
  intro panels
  induction panels with
  | nil => intro i j p hp; simp at hp
  | cons a rest ih =>
    intro i j p hp htp hbefore hlog
    unfold touchedPanelFrom
    cases j with
    | zero =>
      simp at hp
      subst hp
      rw [if_pos htp]
      rcases hlog with hl | hl
      · simp [hl]
      · cases hta : a.text with
        | nil => exact absurd hta hl
        | cons t ts => cases logDebug <;> simp
    | succ j3 =>
      have ha : a.isTouchOnPanel tpX tpY = false := hbefore 0 a (by omega) (by simp)
      simp only [ha, Bool.false_eq_true, if_false]
      simp at hp
      have := ih (i + 1) j3 p hp htp
        (fun j2 q hj hq => hbefore (j2 + 1) q (by omega) (by simpa using hq)) hlog
      rw [this]
      congr 2
      omega

/-- The index `text[0]` is out of range exactly when debug logging is
compiled in and the first panel that passes `isTouchOnPanel` has no text
line. -/
theorem touchedPanelFrom_error_iff (logDebug : Bool) (tpX tpY : Int) :
    ∀ (panels : List DisplayPanel) (i : Nat),
      touchedPanelFrom logDebug tpX tpY i panels = .error Fault.textIndexOutOfRange ↔
      (logDebug = true ∧
        ∃ p, panels.find? (fun q => q.isTouchOnPanel tpX tpY) = some p ∧ p.text = []) := by
  intro panels
  induction panels with
  | nil => intro i; simp [touchedPanelFrom]
  | cons a rest ih =>
    intro i
    unfold touchedPanelFrom
    by_cases ha : a.isTouchOnPanel tpX tpY = true
    · rw [if_pos ha]
      cases logDebug <;> cases hta : a.text <;> simp [List.find?_cons, ha, hta]
    · rw [if_neg ha, ih (i + 1)]
      simp at ha
      simp [List.find?_cons, ha]

end DisplayPanel

/-! ## Drawing lemmas -/

namespace DisplayPanel

theorem drawRect_append (p : DisplayPanel) (display : Display) :
    p.drawRect display = display ++ p.drawRect [] := by
  unfold drawRect
  split
  · simp
  · split <;> simp

theorem printMultiLoop_append (p : DisplayPanel) (topPadding textHeight : Int) :
    ∀ (text : List String) (lineNum : Int) (display : Display),
      printMultiLoop p topPadding textHeight lineNum text display =
        display ++ printMultiLoop p topPadding textHeight lineNum text [] := by
  intro text
  induction text with
  | nil => intro lineNum display; simp [printMultiLoop]
  | cons line rest ih =>
    intro lineNum display
    unfold printMultiLoop
    rw [ih (lineNum + 1) (display ++ _), ih (lineNum + 1) ([] ++ _)]
    simp

theorem drawImageOrText_append (measure : Measure) (p : DisplayPanel) (display : Display) :
    p.drawImageOrText measure display = display ++ p.drawImageOrText measure [] := by
  unfold drawImageOrText
  split
  · simp
  · split
    · unfold drawImage
      split <;> simp
    · split
      · simp [printMiddle]
      · unfold printMulti
        exact printMultiLoop_append p _ _ _ _ _
      · simp

theorem foldl_drawRect (panels : List DisplayPanel) :
    ∀ display : Display,
      panels.foldl (fun d panel => drawRect panel d) display =
        display ++ panels.flatMap (fun panel => panel.drawRect []) := by
  induction panels with
  | nil => intro display; simp
  | cons a rest ih =>
    intro display
    rw [List.foldl_cons, ih, drawRect_append a display]
    simp

theorem foldl_drawImageOrText (measure : Measure) (panels : List DisplayPanel) :
    ∀ display : Display,
      panels.foldl (fun d panel => drawImageOrText measure panel d) display =
        display ++ panels.flatMap (fun panel => panel.drawImageOrText measure []) := by
  induction panels with
  | nil => intro display; simp
  | cons a rest ih =>
    intro display
    rw [List.foldl_cons, ih, drawImageOrText_append measure a display]
    simp

theorem printMultiLoop_cons (p : DisplayPanel) (topPadding textHeight lineNum : Int)
    (line : String) (rest : List String) :
    printMultiLoop p topPadding textHeight lineNum (line :: rest) [] =
      printMultiCall p topPadding textHeight lineNum line ::
        printMultiLoop p topPadding textHeight (lineNum + 1) rest [] := by
  conv_lhs => unfold printMultiLoop
  rw [printMultiLoop_append]
  simp

theorem printMultiLoop_length (p : DisplayPanel) (topPadding textHeight : Int) :
    ∀ (text : List String) (lineNum : Int),
      (printMultiLoop p topPadding textHeight lineNum text []).length = text.length := by
  intro text
  induction text with
  | nil => intro lineNum; simp [printMultiLoop]
  | cons line rest ih =>
    intro lineNum
    rw [printMultiLoop_cons, List.length_cons, ih, List.length_cons]

theorem printMultiLoop_getElem? (p : DisplayPanel) (topPadding textHeight : Int) :
    ∀ (text : List String) (lineNum : Int) (k : Nat) (line : String),
      text[k]? = some line →
      (printMultiLoop p topPadding textHeight lineNum text [])[k]? =
        some (printMultiCall p topPadding textHeight (lineNum + (k : Int)) line) := by
  intro text
  induction text with
  | nil => intro lineNum k line h; simp at h
  | cons t rest ih =>
    intro lineNum k line h
    rw [printMultiLoop_cons]
    cases k with
    | zero =>
      simp at h
      subst h
      simp
    | succ k2 =>
      simp at h
      have := ih (lineNum + 1) k2 line h
      simp only [List.getElem?_cons_succ, this]
      congr 2
      push_cast
      ring

theorem printMultiLogged_fst (measure : Measure) (p : DisplayPanel) (display : Display)
    (text : List String) (log : FontLog) :
    (printMultiLogged measure p display text log).1 = printMulti measure p display text :=
  rfl

theorem printMultiLogged_snd (measure : Measure) (p : DisplayPanel) (display : Display)
    (text : List String) (log : FontLog) :
    (printMultiLogged measure p display text log).2
      = log ++ [{ font := p.font, text := "M" }] :=
  rfl

/-- Recording the font uses does not change what is drawn. -/
theorem drawImageOrTextLogged_fst (measure : Measure) (p : DisplayPanel)
    (display : Display) (log : FontLog) :
    (p.drawImageOrTextLogged measure display log).1 = p.drawImageOrText measure display := by
  unfold drawImageOrTextLogged drawImageOrText
  split
  · rfl
  · split
    · rfl
    · split <;> rfl

theorem drawLogged_fst (measure : Measure) (p : DisplayPanel) (display : Display)
    (log : FontLog) :
    (p.drawLogged measure display log).1 = p.draw measure display := by
  unfold drawLogged draw
  exact drawImageOrTextLogged_fst measure p _ log

theorem drawRect_isBackground (p : DisplayPanel) :
    ∀ c ∈ p.drawRect [], c.isBackground = true := by
  intro c hc
  unfold drawRect at hc
  split at hc
  · simp at hc
  · split at hc
    · simp at hc
      rcases hc with rfl | rfl <;> rfl
    · simp at hc
      subst hc
      rfl

theorem printMultiLoop_isContent (p : DisplayPanel) (topPadding textHeight : Int) :
    ∀ (text : List String) (lineNum : Int),
      ∀ c ∈ printMultiLoop p topPadding textHeight lineNum text [], c.isContent = true := by
  intro text
  induction text with
  | nil => intro lineNum c hc; simp [printMultiLoop] at hc
  | cons line rest ih =>
    intro lineNum c hc
    unfold printMultiLoop at hc
    rw [printMultiLoop_append] at hc
    simp at hc
    rcases hc with rfl | hc
    · rfl
    · exact ih (lineNum + 1) c hc

theorem drawImageOrText_isContent (measure : Measure) (p : DisplayPanel) :
    ∀ c ∈ p.drawImageOrText measure [], c.isContent = true := by
  intro c hc
  unfold drawImageOrText at hc
  split at hc
  · simp at hc
  · split at hc
    · unfold drawImage at hc
      split at hc
      · simp at hc
        subst hc
        rfl
      · simp at hc
    · split at hc
      · simp [printMiddle] at hc
        subst hc
        rfl
      · unfold printMulti at hc
        exact printMultiLoop_isContent p _ _ _ _ c hc
      · simp at hc

theorem isBackground_not_isContent (c : DisplayCall) (h : c.isBackground = true) :
    c.isContent = false := by
  cases c <;> simp_all [DisplayCall.isBackground, DisplayCall.isContent]

end DisplayPanel

/-! ## Hit-testing claims -/

open DisplayPanel

/-- C1, counterexample.  The panel built by `DisplayPanel(4294967290, 0, 5, 10)`
has `max_x = 4294967295`; the touch `(-1, 5)` is left of it, yet
`isTouchOnPanel(-1, 5)` is true: `-1` is compared as `4294967295`. -/
theorem C1_integer_comparison_fails :
    ¬ ((DisplayPanel.new 4294967290 0 5 10).isTouchOnPanel (-1) 5 = true ↔
        ((DisplayPanel.new 4294967290 0 5 10).enabled = true ∧
         (DisplayPanel.new 4294967290 0 5 10).touchable = true ∧
         (((DisplayPanel.new 4294967290 0 5 10).x : Int) ≤ -1 ∧
           (-1 : Int) ≤ ((DisplayPanel.new 4294967290 0 5 10).max_x : Int)) ∧
         (((DisplayPanel.new 4294967290 0 5 10).y : Int) ≤ 5 ∧
           (5 : Int) ≤ ((DisplayPanel.new 4294967290 0 5 10).max_y : Int)))) := by
  decide

/-- C1, amended.  For every panel and every `int` touch point such that, on
each axis, the touch coordinate is non-negative or the panel's stored upper
bound is at most `INT_MAX`: `isTouchOnPanel` is true if and only if the panel
is enabled and touchable and `x <= px <= max_x` and `y <= py <= max_y`, the
comparisons being between integer values. -/
theorem C1_isTouchOnPanel_iff (p : DisplayPanel) (tpX tpY : Int)
    (hX : IsInt32 tpX) (hY : IsInt32 tpY)
    (hx : 0 ≤ tpX ∨ p.max_x < 2147483648)
    (hy : 0 ≤ tpY ∨ p.max_y < 2147483648) :
    p.isTouchOnPanel tpX tpY = true ↔
      (p.enabled = true ∧ p.touchable = true ∧
        ((p.x : Int) ≤ tpX ∧ tpX ≤ (p.max_x : Int)) ∧
        ((p.y : Int) ≤ tpY ∧ tpY ≤ (p.max_y : Int))) := by
  rw [isTouchOnPanel_eq_true_iff, coord_test_iff p.x p.max_x tpX hX hx,
    coord_test_iff p.y p.max_y tpY hY hy]

/-- C1, witness: a panel at `(10, 20)` of size `100 x 50` and the touch
`(-3, 70)`. -/
theorem C1_isTouchOnPanel_iff_witness :
    IsInt32 (-3) ∧ IsInt32 70 ∧
    ((0 : Int) ≤ -3 ∨ (DisplayPanel.new 10 20 100 50).max_x < 2147483648) ∧
    ((0 : Int) ≤ 70 ∨ (DisplayPanel.new 10 20 100 50).max_y < 2147483648) ∧
    ((DisplayPanel.new 10 20 100 50).isTouchOnPanel (-3) 70 = true ↔
      ((DisplayPanel.new 10 20 100 50).enabled = true ∧
        (DisplayPanel.new 10 20 100 50).touchable = true ∧
        (((DisplayPanel.new 10 20 100 50).x : Int) ≤ -3 ∧
          (-3 : Int) ≤ ((DisplayPanel.new 10 20 100 50).max_x : Int)) ∧
        (((DisplayPanel.new 10 20 100 50).y : Int) ≤ 70 ∧
          (70 : Int) ≤ ((DisplayPanel.new 10 20 100 50).max_y : Int)))) :=
  ⟨by decide, by decide, by decide, by decide,
    C1_isTouchOnPanel_iff (DisplayPanel.new 10 20 100 50) (-3) 70
      (by decide) (by decide) (by decide) (by decide)⟩

/-- C2, at the failing input.  A touchable panel that shows an image and has
no text line is the first match of the touch `(50, 50)`; with debug logging
compiled in, `touchedPanel` indexes `text[0]` out of range instead of
returning the panel (it returns it when the log statement is compiled out). -/
theorem C2_touchedPanel_faults_on_empty_text :
    ({ DisplayPanel.new 0 0 100 100 with image := some ⟨1⟩ } : DisplayPanel).isTouchOnPanel
        50 50 = true ∧
    touchedPanel true [{ DisplayPanel.new 0 0 100 100 with image := some ⟨1⟩ }] 50 50
      = .error Fault.textIndexOutOfRange ∧
    touchedPanel false [{ DisplayPanel.new 0 0 100 100 with image := some ⟨1⟩ }] 50 50
      = .ok (some 0) := by
  refine ⟨?_, rfl, rfl⟩
  decide

/-- C9, counterexample.  The panel built by `DisplayPanel(0, 4294967286, 10, 9)`
has `max_y = 4294967295`; the touch `(3, -1)` passes its range test. -/
theorem C9_negative_touch_matches :
    ¬ ((DisplayPanel.new 0 4294967286 10 9).isTouchOnPanel 3 (-1) = false) := by
  decide

/-- C9, amended.  For every panel and every `int` touch point that has a
negative coordinate on an axis where the panel's stored upper bound (`max_x`
for `px`, `max_y` for `py`) is at most `INT_MAX`, `isTouchOnPanel` returns
false. -/
theorem C9_negative_touch_fails (p : DisplayPanel) (tpX tpY : Int)
    (hX : IsInt32 tpX) (hY : IsInt32 tpY)
    (hneg : (tpX < 0 ∧ p.max_x < 2147483648) ∨ (tpY < 0 ∧ p.max_y < 2147483648)) :
    p.isTouchOnPanel tpX tpY = false := by
  rw [← Bool.not_eq_true, isTouchOnPanel_eq_true_iff]
  rintro ⟨-, -, ⟨-, h1⟩, ⟨-, h2⟩⟩
  have bx := toU32_neg_ge tpX hX.1
  have bY := toU32_neg_ge tpY hY.1
  omega

/-- C9, witness: the touch `(-1, 5)` on a panel at the origin of size
`320 x 240`. -/
theorem C9_negative_touch_fails_witness :
    IsInt32 (-1) ∧ IsInt32 5 ∧
    (((-1 : Int) < 0 ∧ (DisplayPanel.new 0 0 320 240).max_x < 2147483648) ∨
      ((5 : Int) < 0 ∧ (DisplayPanel.new 0 0 320 240).max_y < 2147483648)) ∧
    (DisplayPanel.new 0 0 320 240).isTouchOnPanel (-1) 5 = false :=
  ⟨by decide, by decide, by decide,
    C9_negative_touch_fails (DisplayPanel.new 0 0 320 240) (-1) 5
      (by decide) (by decide) (by decide)⟩

/-- C10.  A panel of the list that is disabled or non-touchable is never the
result of `touchedPanel`, whatever its geometry and the touch point, and its
`isTouchOnPanel` is false for every point; clearing `enabled` or `touchable`
on any panel makes `isTouchOnPanel` false for every point. -/
theorem C10_never_disabled_or_untouchable (logDebug : Bool) (panels : List DisplayPanel)
    (tpX tpY : Int) (k : Nat) (p : DisplayPanel)
    (hk : panels[k]? = some p)
    (hoff : p.enabled = false ∨ p.touchable = false) :
    touchedPanel logDebug panels tpX tpY ≠ .ok (some k) ∧
    (∀ x y : Int, p.isTouchOnPanel x y = false) ∧
    (∀ (q : DisplayPanel) (x y : Int),
      ({ q with enabled := false } : DisplayPanel).isTouchOnPanel x y = false ∧
      ({ q with touchable := false } : DisplayPanel).isTouchOnPanel x y = false) := by
  have hnever : ∀ x y : Int, p.isTouchOnPanel x y = false := by
    intro x y
    rcases hoff with h | h <;> simp [isTouchOnPanel, h]
  refine ⟨?_, hnever, ?_⟩
  · intro hres
    obtain ⟨j, q, hj, hq, hq2, -⟩ := touchedPanelFrom_ok_some logDebug tpX tpY panels 0 k hres
    have hjk : j = k := by omega
    subst hjk
    rw [hk] at hq
    cases hq
    rw [hnever tpX tpY] at hq2
    cases hq2
  · intro q x y
    simp [isTouchOnPanel]

/-- C10, witness: a disabled panel listed before an enabled one of the same
geometry, touched inside both; the enabled one, at position 1, is returned. -/
theorem C10_never_disabled_or_untouchable_witness :
    ([{ DisplayPanel.new 0 0 10 10 with enabled := false, text := ["A"] },
        { DisplayPanel.new 0 0 10 10 with text := ["B"] }][0]?
      = some { DisplayPanel.new 0 0 10 10 with enabled := false, text := ["A"] }) ∧
    (({ DisplayPanel.new 0 0 10 10 with enabled := false, text := ["A"] }
        : DisplayPanel).enabled = false ∨
      ({ DisplayPanel.new 0 0 10 10 with enabled := false, text := ["A"] }
        : DisplayPanel).touchable = false) ∧
    touchedPanel true
        [{ DisplayPanel.new 0 0 10 10 with enabled := false, text := ["A"] },
          { DisplayPanel.new 0 0 10 10 with text := ["B"] }] 5 5
      = .ok (some 1) ∧
    (touchedPanel true
        [{ DisplayPanel.new 0 0 10 10 with enabled := false, text := ["A"] },
          { DisplayPanel.new 0 0 10 10 with text := ["B"] }] 5 5
      ≠ .ok (some 0) ∧
    (∀ x y : Int,
      ({ DisplayPanel.new 0 0 10 10 with enabled := false, text := ["A"] }
        : DisplayPanel).isTouchOnPanel x y = false) ∧
    (∀ (q : DisplayPanel) (x y : Int),
      ({ q with enabled := false } : DisplayPanel).isTouchOnPanel x y = false ∧
      ({ q with touchable := false } : DisplayPanel).isTouchOnPanel x y = false)) :=
  ⟨rfl, Or.inl rfl, rfl,
    C10_never_disabled_or_untouchable true
      [{ DisplayPanel.new 0 0 10 10 with enabled := false, text := ["A"] },
        { DisplayPanel.new 0 0 10 10 with text := ["B"] }] 5 5 0
      { DisplayPanel.new 0 0 10 10 with enabled := false, text := ["A"] } rfl (Or.inl rfl)⟩

/-! ## Drawing claims -/

/-- C3.  The calls that `drawAllPanels` adds to the display are the
background calls of every panel, in list order, followed by the content calls
of every panel, in list order; for `[A, B]` that is A's background, B's
background, A's content, B's content; among the added calls no background
call comes after a content call. -/
theorem C3_drawAllPanels_backgrounds_then_contents (measure : Measure) (display : Display)
    (panels : List DisplayPanel) :
    drawAllPanels measure display panels =
        display ++ panels.flatMap (fun panel => panel.drawRect [])
          ++ panels.flatMap (fun panel => panel.drawImageOrText measure []) ∧
    (∀ A B : DisplayPanel,
      drawAllPanels measure display [A, B] =
        display ++ A.drawRect [] ++ B.drawRect []
          ++ A.drawImageOrText measure [] ++ B.drawImageOrText measure []) ∧
    (∀ c ∈ panels.flatMap (fun panel => panel.drawRect []), c.isBackground = true) ∧
    (∀ c ∈ panels.flatMap (fun panel => panel.drawImageOrText measure []),
      c.isContent = true) ∧
    (∀ (i j : Nat) (c1 c2 : DisplayCall),
      (drawAllPanels measure [] panels)[i]? = some c1 →
      (drawAllPanels measure [] panels)[j]? = some c2 →
      c1.isContent = true → c2.isBackground = true → j < i) := by
  have hall : ∀ (d : Display) (ps : List DisplayPanel),
      drawAllPanels measure d ps =
        d ++ ps.flatMap (fun panel => panel.drawRect [])
          ++ ps.flatMap (fun panel => panel.drawImageOrText measure []) := by
    intro d ps
    unfold drawAllPanels
    simp only [foldl_drawRect, foldl_drawImageOrText]
  have hbg : ∀ c ∈ panels.flatMap (fun panel => panel.drawRect []),
      c.isBackground = true := by
    intro c hc
    obtain ⟨q, -, hq⟩ := List.mem_flatMap.mp hc
    exact drawRect_isBackground q c hq
  have hct : ∀ c ∈ panels.flatMap (fun panel => panel.drawImageOrText measure []),
      c.isContent = true := by
    intro c hc
    obtain ⟨q, -, hq⟩ := List.mem_flatMap.mp hc
    exact drawImageOrText_isContent measure q c hq
  refine ⟨hall display panels, ?_, hbg, hct, ?_⟩
  · intro A B
    rw [hall]
    simp [List.flatMap_cons, List.append_assoc]
  · intro i j c1 c2 h1 h2 hc1 hc2
    rw [hall, List.nil_append] at h1 h2
    by_contra hij
    have hij : i ≤ j := by omega
    by_cases hi : i < (panels.flatMap (fun panel => panel.drawRect [])).length
    · rw [List.getElem?_append_left hi] at h1
      have := isBackground_not_isContent c1 (hbg c1 (List.getElem?_mem h1))
      rw [this] at hc1
      cases hc1
    · have hj : (panels.flatMap (fun panel => panel.drawRect [])).length ≤ j := by omega
      rw [List.getElem?_append_right hj] at h2
      have hc := hct c2 (List.getElem?_mem h2)
      rw [isBackground_not_isContent c2 hc2] at hc
      cases hc

/-- C6.  An enabled panel with `w > 0`, `h > 0` and an image set: the content
pass adds exactly one call, the image at `(x, y)`, and no text call, whatever
the text lines are. -/
theorem C6_image_precedence (measure : Measure) (p : DisplayPanel) (display : Display)
    (img : BaseImage)
    (hen : p.enabled = true) (hw : 0 < p.w) (hh : 0 < p.h)
    (himg : p.image = some img) :
    p.drawImageOrText measure display = display ++ [DisplayCall.image p.x p.y img] := by
  have hw2 : p.w ≠ 0 := by omega
  have hh2 : p.h ≠ 0 := by omega
  simp [drawImageOrText, drawImage, hen, hw2, hh2, himg]

/-- C6, witness: an image panel that also has two text lines. -/
theorem C6_image_precedence_witness :
    ({ DisplayPanel.new 3 4 100 40 with image := some ⟨7⟩, text := ["a", "b"] }
        : DisplayPanel).enabled = true ∧
    0 < ({ DisplayPanel.new 3 4 100 40 with image := some ⟨7⟩, text := ["a", "b"] }
        : DisplayPanel).w ∧
    0 < ({ DisplayPanel.new 3 4 100 40 with image := some ⟨7⟩, text := ["a", "b"] }
        : DisplayPanel).h ∧
    ({ DisplayPanel.new 3 4 100 40 with image := some ⟨7⟩, text := ["a", "b"] }
        : DisplayPanel).drawImageOrText (fixedMeasure 10) []
      = [] ++ [DisplayCall.image 3 4 ⟨7⟩] :=
  ⟨rfl, by decide, by decide,
    C6_image_precedence (fixedMeasure 10)
      { DisplayPanel.new 3 4 100 40 with image := some ⟨7⟩, text := ["a", "b"] } [] ⟨7⟩
      rfl (by decide) (by decide) rfl⟩

/-- C7.  A panel that is disabled or has `w = 0` or `h = 0`: `draw` adds no
call to the display, and neither does its background pass nor its content
pass, whatever the image, the text lines and the outline flag are. -/
theorem C7_inert_panel_draws_nothing (measure : Measure) (p : DisplayPanel)
    (display : Display)
    (h : p.enabled = false ∨ p.w = 0 ∨ p.h = 0) :
    p.draw measure display = display ∧
    p.drawRect display = display ∧
    p.drawImageOrText measure display = display := by
  have h1 : p.drawRect display = display := by
    rcases h with h | h | h <;> simp [drawRect, h]
  have h2 : p.drawImageOrText measure display = display := by
    rcases h with h | h | h <;> simp [drawImageOrText, h]
  refine ⟨?_, h1, h2⟩
  unfold draw
  rw [h1, h2]

/-- C7, witness: a panel of height 0 with an image, a text line and the
outline flag. -/
theorem C7_inert_panel_draws_nothing_witness :
    (({ DisplayPanel.new 3 4 100 0 with
          image := some ⟨7⟩, text := ["a"], drawPanelOutline := true } : DisplayPanel).enabled
        = false ∨
      ({ DisplayPanel.new 3 4 100 0 with
          image := some ⟨7⟩, text := ["a"], drawPanelOutline := true } : DisplayPanel).w = 0 ∨
      ({ DisplayPanel.new 3 4 100 0 with
          image := some ⟨7⟩, text := ["a"], drawPanelOutline := true } : DisplayPanel).h = 0) ∧
    (({ DisplayPanel.new 3 4 100 0 with
          image := some ⟨7⟩, text := ["a"], drawPanelOutline := true } : DisplayPanel).draw
        (fixedMeasure 10) [] = [] ∧
      ({ DisplayPanel.new 3 4 100 0 with
          image := some ⟨7⟩, text := ["a"], drawPanelOutline := true } : DisplayPanel).drawRect
        [] = [] ∧
      ({ DisplayPanel.new 3 4 100 0 with
          image := some ⟨7⟩, text := ["a"], drawPanelOutline := true }
          : DisplayPanel).drawImageOrText (fixedMeasure 10) [] = []) :=
  ⟨Or.inr (Or.inr rfl),
    C7_inert_panel_draws_nothing (fixedMeasure 10)
      { DisplayPanel.new 3 4 100 0 with
          image := some ⟨7⟩, text := ["a"], drawPanelOutline := true } []
      (Or.inr (Or.inr rfl))⟩

/-- C8, counterexample.  A one-line panel built by
`DisplayPanel(4294967295, 0, 2, 10)`: `x + floor(w/2)` is `4294967296`, but
the unsigned sum wraps and the text is printed at horizontal position 0,
which is not `4294967296` under either reading of the argument. -/
theorem C8_horizontal_position_wraps :
    ¬ ∃ X Y : Nat,
      ({ DisplayPanel.new 4294967295 0 2 10 with text := ["A"] }
          : DisplayPanel).drawImageOrText (fixedMeasure 10) []
        = [DisplayCall.print X Y ⟨0⟩ ⟨0⟩ TextAlign.CENTER "A"] ∧
      ((X : Int) = (4294967295 : Int) + ((2 / 2 : Nat) : Int) ∨
        toInt32 X = (4294967295 : Int) + ((2 / 2 : Nat) : Int)) := by
  rintro ⟨X, Y, h, hX⟩
  have hcode : ({ DisplayPanel.new 4294967295 0 2 10 with text := ["A"] }
          : DisplayPanel).drawImageOrText (fixedMeasure 10) []
        = [DisplayCall.print 0 5 ⟨0⟩ ⟨0⟩ TextAlign.CENTER "A"] := by decide
  rw [hcode] at h
  simp at h
  obtain ⟨hX0, -⟩ := h
  subst hX0
  rcases hX with hX | hX
  · revert hX; decide
  · revert hX; decide

/-- C8, amended.  An enabled panel with `w > 0`, `h > 0`, no image and exactly
one text line: the content pass adds exactly one text call, carrying that
line, with true-center anchoring, whose coordinates are the 32-bit values of
`x + floor(w/2)` and `y + floor(h/2) + fontVertOffset` (the sums reduced
modulo `2 ^ 32`); read by the display as `int` they are those integers
whenever these lie in the `int` range.  The font's measured height and
`fontHeightOffset` play no part. -/
theorem C8_printMiddle_anchor (measure : Measure) (p : DisplayPanel) (display : Display)
    (line : String)
    (hen : p.enabled = true) (hw : 0 < p.w) (hh : 0 < p.h)
    (himg : p.image = none) (htext : p.text = [line]) :
    p.drawImageOrText measure display =
      display ++ [DisplayCall.print
        (toU32 ((p.x : Int) + ((p.w / 2 : Nat) : Int)))
        (toU32 ((p.y : Int) + ((p.h / 2 : Nat) : Int) + p.fontVertOffset))
        p.font p.textColor TextAlign.CENTER line] ∧
    (IsInt32 ((p.x : Int) + ((p.w / 2 : Nat) : Int)) →
      toInt32 (toU32 ((p.x : Int) + ((p.w / 2 : Nat) : Int)))
        = (p.x : Int) + ((p.w / 2 : Nat) : Int)) ∧
    (IsInt32 ((p.y : Int) + ((p.h / 2 : Nat) : Int) + p.fontVertOffset) →
      toInt32 (toU32 ((p.y : Int) + ((p.h / 2 : Nat) : Int) + p.fontVertOffset))
        = (p.y : Int) + ((p.h / 2 : Nat) : Int) + p.fontVertOffset) ∧
    (∀ (measure2 : Measure) (offset : Int),
      ({ p with fontHeightOffset := offset } : DisplayPanel).drawImageOrText measure2 display
        = p.drawImageOrText measure display) := by
  have hw2 : p.w ≠ 0 := by omega
  have hh2 : p.h ≠ 0 := by omega
  refine ⟨?_, toInt32_toU32 _, toInt32_toU32 _, ?_⟩
  · simp [drawImageOrText, printMiddle, hen, hw2, hh2, himg, htext,
      toU32_add_toInt32, toU32_middle_y]
  · intro measure2 offset
    simp [drawImageOrText, printMiddle, hen, hw2, hh2, himg, htext]

/-- C8, witness: one line in a panel at `(5, 7)` of size `100 x 41` with
`fontVertOffset = -3`. -/
theorem C8_printMiddle_anchor_witness :
    ({ DisplayPanel.new 5 7 100 41 with text := ["A"], fontVertOffset := -3 }
        : DisplayPanel).enabled = true ∧
    0 < ({ DisplayPanel.new 5 7 100 41 with text := ["A"], fontVertOffset := -3 }
        : DisplayPanel).w ∧
    0 < ({ DisplayPanel.new 5 7 100 41 with text := ["A"], fontVertOffset := -3 }
        : DisplayPanel).h ∧
    ({ DisplayPanel.new 5 7 100 41 with text := ["A"], fontVertOffset := -3 }
        : DisplayPanel).drawImageOrText (fixedMeasure 10) []
      = [DisplayCall.print 55 24 ⟨0⟩ ⟨0⟩ TextAlign.CENTER "A"] :=
  ⟨rfl, by decide, by decide,
    (C8_printMiddle_anchor (fixedMeasure 10)
      { DisplayPanel.new 5 7 100 41 with text := ["A"], fontVertOffset := -3 } [] "A"
      rfl (by decide) (by decide) rfl rfl).1⟩

/-- C4, counterexample.  A two-line panel built by
`DisplayPanel(4294967295, 0, 2, 40)` with line height 10: `x + floor(w/2)` is
`4294967296`, but the unsigned sum wraps and the first line is printed at
horizontal position 0. -/
theorem C4_horizontal_position_wraps :
    ¬ ∃ X Y : Nat,
      (({ DisplayPanel.new 4294967295 0 2 40 with text := ["a", "b"] }
          : DisplayPanel).drawImageOrText (fixedMeasure 10) [])[0]?
        = some (DisplayCall.print X Y ⟨0⟩ ⟨0⟩ TextAlign.TOP_CENTER "a") ∧
      ((X : Int) = (4294967295 : Int) + ((2 / 2 : Nat) : Int) ∨
        toInt32 X = (4294967295 : Int) + ((2 / 2 : Nat) : Int)) := by
  rintro ⟨X, Y, h, hX⟩
  have hcode : ({ DisplayPanel.new 4294967295 0 2 40 with text := ["a", "b"] }
          : DisplayPanel).drawImageOrText (fixedMeasure 10) []
        = [DisplayCall.print 0 10 ⟨0⟩ ⟨0⟩ TextAlign.TOP_CENTER "a",
           DisplayCall.print 0 20 ⟨0⟩ ⟨0⟩ TextAlign.TOP_CENTER "b"] := by decide
  rw [hcode] at h
  simp at h
  obtain ⟨hX0, -⟩ := h
  subst hX0
  rcases hX with hX | hX
  · revert hX; decide
  · revert hX; decide

/-- C4, amended.  An enabled panel with `w > 0`, `h > 0`, no image and
`n >= 2` text lines whose text block fits the panel (`n * L <= h`, with
`h - n * L` below `2 ^ 32`), `L` being the font's measured height for "M" plus
`fontHeightOffset` and `topPadding = max(0, floor((h - n * L) / 2))`: the
content pass adds exactly `n` text calls, in line order, the `i`-th carrying
the `i`-th line with top-center anchoring, its coordinates being the 32-bit
values of `x + floor(w/2)` and `y + topPadding + i * L + fontVertOffset` (the
sums reduced modulo `2 ^ 32`); read by the display as `int` they are those
integers whenever these lie in the `int` range. -/
theorem C4_printMulti_layout (measure : Measure) (p : DisplayPanel) (display : Display)
    (hen : p.enabled = true) (hw : 0 < p.w) (hh : 0 < p.h)
    (himg : p.image = none) (hn : 2 ≤ p.text.length)
    (hfit : (p.text.length : Int) * lineHeight measure p ≤ (p.h : Int))
    (hrange : (p.h : Int) - (p.text.length : Int) * lineHeight measure p < 4294967296) :
    ∃ calls : List DisplayCall,
      p.drawImageOrText measure display = display ++ calls ∧
      calls.length = p.text.length ∧
      ∀ (i : Nat) (line : String), p.text[i]? = some line →
        calls[i]? = some (DisplayCall.print
          (toU32 ((p.x : Int) + ((p.w / 2 : Nat) : Int)))
          (toU32 ((p.y : Int)
            + max 0 (((p.h : Int) - (p.text.length : Int) * lineHeight measure p) / 2)
            + (i : Int) * lineHeight measure p + p.fontVertOffset))
          p.font p.textColor TextAlign.TOP_CENTER line) ∧
        (IsInt32 ((p.x : Int) + ((p.w / 2 : Nat) : Int)) →
          toInt32 (toU32 ((p.x : Int) + ((p.w / 2 : Nat) : Int)))
            = (p.x : Int) + ((p.w / 2 : Nat) : Int)) ∧
        (IsInt32 ((p.y : Int)
            + max 0 (((p.h : Int) - (p.text.length : Int) * lineHeight measure p) / 2)
            + (i : Int) * lineHeight measure p + p.fontVertOffset) →
          toInt32 (toU32 ((p.y : Int)
            + max 0 (((p.h : Int) - (p.text.length : Int) * lineHeight measure p) / 2)
            + (i : Int) * lineHeight measure p + p.fontVertOffset))
          = (p.y : Int)
            + max 0 (((p.h : Int) - (p.text.length : Int) * lineHeight measure p) / 2)
            + (i : Int) * lineHeight measure p + p.fontVertOffset) := by
  have hw2 : p.w ≠ 0 := by omega
  have hh2 : p.h ≠ 0 := by omega
  have hpad0 : 0 ≤ ((p.h : Int) - (p.text.length : Int) * lineHeight measure p) / 2 := by
    omega
  have hpad : (if topPaddingInit p.h p.text.length (lineHeight measure p) ≥ 0
        then topPaddingInit p.h p.text.length (lineHeight measure p) else 0)
      = max 0 (((p.h : Int) - (p.text.length : Int) * lineHeight measure p) / 2) := by
    rw [topPaddingInit_of_fits _ _ _ hfit hrange, if_pos hpad0, max_eq_right hpad0]
  refine ⟨printMultiLoop p
      (max 0 (((p.h : Int) - (p.text.length : Int) * lineHeight measure p) / 2))
      (lineHeight measure p) 0 p.text [], ?_, printMultiLoop_length _ _ _ _ _, ?_⟩
  · have hmulti : p.drawImageOrText measure display = printMulti measure p display p.text := by
      obtain ⟨a, b, rest, ht⟩ : ∃ a b rest, p.text = a :: b :: rest := by
        match hp : p.text with
        | [] => simp [hp] at hn
        | [_] => simp [hp] at hn
        | a :: b :: rest => exact ⟨a, b, rest, rfl⟩
      unfold drawImageOrText
      simp [hen, hw2, hh2, himg, ht]
    rw [hmulti]
    unfold printMulti
    simp only []
    rw [printMultiLoop_append]
    unfold lineHeight at hpad ⊢
    rw [hpad]
  · intro i line hline
    refine ⟨?_, toInt32_toU32 _, toInt32_toU32 _⟩
    rw [printMultiLoop_getElem? _ _ _ _ _ _ _ hline]
    unfold printMultiCall
    rw [toU32_add_toInt32, toU32_chain, Int.zero_add]

/-- C4, witness: two lines in a panel at `(5, 7)` of size `100 x 40` with
line height 10 and `fontVertOffset = -3`. -/
theorem C4_printMulti_layout_witness :
    ({ DisplayPanel.new 5 7 100 40 with text := ["a", "b"], fontVertOffset := -3 }
        : DisplayPanel).drawImageOrText (fixedMeasure 10) []
      = [DisplayCall.print 55 14 ⟨0⟩ ⟨0⟩ TextAlign.TOP_CENTER "a",
         DisplayCall.print 55 24 ⟨0⟩ ⟨0⟩ TextAlign.TOP_CENTER "b"] ∧
    ∃ calls : List DisplayCall,
      ({ DisplayPanel.new 5 7 100 40 with text := ["a", "b"], fontVertOffset := -3 }
          : DisplayPanel).drawImageOrText (fixedMeasure 10) [] = [] ++ calls ∧
      calls.length = 2 ∧
      ∀ (i : Nat) (line : String), ["a", "b"][i]? = some line →
        calls[i]? = some (DisplayCall.print
          (toU32 (5 + ((100 / 2 : Nat) : Int)))
          (toU32 (7 + max 0 ((40 - 2 * 10) / 2) + (i : Int) * 10 + -3))
          ⟨0⟩ ⟨0⟩ TextAlign.TOP_CENTER line) ∧
        (IsInt32 (5 + ((100 / 2 : Nat) : Int)) →
          toInt32 (toU32 (5 + ((100 / 2 : Nat) : Int))) = 5 + ((100 / 2 : Nat) : Int)) ∧
        (IsInt32 (7 + max 0 ((40 - 2 * 10) / 2) + (i : Int) * 10 + -3) →
          toInt32 (toU32 (7 + max 0 ((40 - 2 * 10) / 2) + (i : Int) * 10 + -3))
          = 7 + max 0 ((40 - 2 * 10) / 2) + (i : Int) * 10 + -3) :=
  ⟨by decide,
    C4_printMulti_layout (fixedMeasure 10)
      { DisplayPanel.new 5 7 100 40 with text := ["a", "b"], fontVertOffset := -3 } []
      rfl (by decide) (by decide) rfl (by decide) (by decide) (by decide)⟩

/-- C5, at the failing input.  Two lines of height 10 in a panel of height 10
(`n * L = 20 > h`): the unsigned difference `h - n * L` wraps, the value given
to `topPadding` is `2147483643` and the clamp leaves it, so the lines are
printed at vertical positions `2147483643` and `2147483653` instead of `0`
and `10`. -/
theorem C5_topPadding_not_clamped :
    topPaddingInit 10 2 10 = 2147483643 ∧
    ({ DisplayPanel.new 0 0 100 10 with text := ["a", "b"] }
        : DisplayPanel).drawImageOrText (fixedMeasure 10) []
      = [DisplayCall.print 50 2147483643 ⟨0⟩ ⟨0⟩ TextAlign.TOP_CENTER "a",
         DisplayCall.print 50 2147483653 ⟨0⟩ ⟨0⟩ TextAlign.TOP_CENTER "b"] := by
  constructor <;> decide

/-! ## Geometry claims -/

/-- C11, counterexample.  The panel built by
`DisplayPanel(2147483647, 0, 2147483649, 10)` is enabled and touchable, but
`x + w` wraps to `max_x = 0`, and its corner `(x, y) = (2147483647, 0)` fails
the range test. -/
theorem C11_corner_fails_after_wrap :
    ¬ ((DisplayPanel.new 2147483647 0 2147483649 10).isTouchOnPanel 2147483647 0 = true) := by
  decide

/-- C11, amended.  An enabled, touchable panel that has the geometry given by
the constructor for `(x, y, w, h)`, with `x + w < 2 ^ 32` and `y + h < 2 ^ 32`
(no wrap-around in the constructor): every touch point that an `int` can
hold, whose horizontal coordinate is `x` or `x + w` and whose vertical
coordinate is `y` or `y + h`, tests true under `isTouchOnPanel`. -/
theorem C11_corners_inclusive (x y w h : Nat) (p : DisplayPanel) (tpX tpY : Int)
    (hen : p.enabled = true) (htouch : p.touchable = true)
    (hgx : p.x = (DisplayPanel.new x y w h).x)
    (hgy : p.y = (DisplayPanel.new x y w h).y)
    (hgmx : p.max_x = (DisplayPanel.new x y w h).max_x)
    (hgmy : p.max_y = (DisplayPanel.new x y w h).max_y)
    (hnx : x + w < 4294967296) (hny : y + h < 4294967296)
    (hX : IsInt32 tpX) (hY : IsInt32 tpY)
    (hcx : tpX = (x : Int) ∨ tpX = (x : Int) + (w : Int))
    (hcy : tpY = (y : Int) ∨ tpY = (y : Int) + (h : Int)) :
    p.isTouchOnPanel tpX tpY = true := by
  rw [isTouchOnPanel_eq_true_iff]
  simp only [DisplayPanel.new] at hgx hgy hgmx hgmy
  unfold IsInt32 at hX hY
  refine ⟨hen, htouch, ?_, ?_⟩
  · rw [hgx, hgmx]
    unfold toU32
    omega
  · rw [hgy, hgmy]
    unfold toU32
    omega

/-- C11, witness: the corner `(x + w, y)` of a panel at `(10, 20)` of size
`100 x 50`. -/
theorem C11_corners_inclusive_witness :
    (DisplayPanel.new 10 20 100 50).enabled = true ∧
    (DisplayPanel.new 10 20 100 50).touchable = true ∧
    10 + 100 < 4294967296 ∧ 20 + 50 < 4294967296 ∧
    IsInt32 110 ∧ IsInt32 20 ∧
    (DisplayPanel.new 10 20 100 50).isTouchOnPanel 110 20 = true :=
  ⟨rfl, rfl, by decide, by decide, by decide, by decide,
    C11_corners_inclusive 10 20 100 50 (DisplayPanel.new 10 20 100 50) 110 20
      rfl rfl rfl rfl rfl rfl (by decide) (by decide) (by decide) (by decide)
      (Or.inr (by decide)) (Or.inl (by decide))⟩

/-- C18.  Geometry sums are 32-bit unsigned: for `unsigned int` arguments with
`x + w >= 2 ^ 32` the constructor stores `max_x = x + w - 2 ^ 32 < x`
(likewise `max_y < y` when `y + h >= 2 ^ 32`), and a panel with that geometry
fails `isTouchOnPanel` at every touch point, whatever its flags are. -/
theorem C18_wrapped_panel_untouchable (x y w h : Nat) (p : DisplayPanel)
    (hx : x < 4294967296) (hy : y < 4294967296)
    (hw : w < 4294967296) (hh : h < 4294967296)
    (hov : 4294967296 ≤ x + w ∨ 4294967296 ≤ y + h)
    (hgx : p.x = (DisplayPanel.new x y w h).x)
    (hgy : p.y = (DisplayPanel.new x y w h).y)
    (hgmx : p.max_x = (DisplayPanel.new x y w h).max_x)
    (hgmy : p.max_y = (DisplayPanel.new x y w h).max_y) :
    (4294967296 ≤ x + w →
      (DisplayPanel.new x y w h).max_x = x + w - 4294967296 ∧
      (DisplayPanel.new x y w h).max_x < x) ∧
    (4294967296 ≤ y + h →
      (DisplayPanel.new x y w h).max_y = y + h - 4294967296 ∧
      (DisplayPanel.new x y w h).max_y < y) ∧
    (∀ tpX tpY : Int, p.isTouchOnPanel tpX tpY = false) ∧
    (∀ tpX tpY : Int, (DisplayPanel.new x y w h).isTouchOnPanel tpX tpY = false) := by
  simp only [DisplayPanel.new] at hgx hgy hgmx hgmy
  have hfalse : ∀ (q : DisplayPanel), q.x = x → q.y = y →
      q.max_x = (x + w) % 4294967296 → q.max_y = (y + h) % 4294967296 →
      ∀ tpX tpY : Int, q.isTouchOnPanel tpX tpY = false := by
    intro q h1 h2 h3 h4 tpX tpY
    rw [← Bool.not_eq_true, isTouchOnPanel_eq_true_iff]
    rintro ⟨-, -, ⟨ha, hb⟩, ⟨hc, hd⟩⟩
    rw [h1, h3] at *
    rw [h2, h4] at *
    omega
  refine ⟨?_, ?_, hfalse p hgx hgy hgmx hgmy, hfalse _ rfl rfl rfl rfl⟩
  · intro ho
    simp only [DisplayPanel.new]
    omega
  · intro ho
    simp only [DisplayPanel.new]
    omega

/-- C18, witness: `DisplayPanel(4294967290, 0, 10, 10)`, whose `max_x` is 4. -/
theorem C18_wrapped_panel_untouchable_witness :
    (4294967296 ≤ 4294967290 + 10 ∨ 4294967296 ≤ 0 + 10) ∧
    (DisplayPanel.new 4294967290 0 10 10).max_x = 4 ∧
    ((4294967296 ≤ 4294967290 + 10 →
      (DisplayPanel.new 4294967290 0 10 10).max_x = 4294967290 + 10 - 4294967296 ∧
      (DisplayPanel.new 4294967290 0 10 10).max_x < 4294967290) ∧
    (4294967296 ≤ 0 + 10 →
      (DisplayPanel.new 4294967290 0 10 10).max_y = 0 + 10 - 4294967296 ∧
      (DisplayPanel.new 4294967290 0 10 10).max_y < 0) ∧
    (∀ tpX tpY : Int, (DisplayPanel.new 4294967290 0 10 10).isTouchOnPanel tpX tpY = false) ∧
    (∀ tpX tpY : Int,
      (DisplayPanel.new 4294967290 0 10 10).isTouchOnPanel tpX tpY = false)) :=
  ⟨Or.inl (by decide), by decide,
    C18_wrapped_panel_untouchable 4294967290 0 10 10 (DisplayPanel.new 4294967290 0 10 10)
      (by decide) (by decide) (by decide) (by decide) (Or.inl (by decide))
      rfl rfl rfl rfl⟩

/-! ## Background, empty content and single-panel claims -/

/-- C12.  An enabled panel with `w > 0` and `h > 0`: the background pass adds
exactly one filled rectangle at `(x, y, w, h)` in the fill colour, followed,
if and only if `drawPanelOutline` is set, by exactly one rectangle outline at
the same `(x, y, w, h)` in the text colour, and nothing else. -/
theorem C12_background_pass (p : DisplayPanel) (display : Display)
    (hen : p.enabled = true) (hw : 0 < p.w) (hh : 0 < p.h) :
    (p.drawPanelOutline = true →
      p.drawRect display = display ++
        [DisplayCall.filled_rectangle p.x p.y p.w p.h p.color,
         DisplayCall.rectangle p.x p.y p.w p.h p.textColor]) ∧
    (p.drawPanelOutline = false →
      p.drawRect display = display ++
        [DisplayCall.filled_rectangle p.x p.y p.w p.h p.color]) := by
  have hw2 : p.w ≠ 0 := by omega
  have hh2 : p.h ≠ 0 := by omega
  constructor
  · intro ho
    simp [drawRect, hen, hw2, hh2, ho]
  · intro ho
    simp [drawRect, hen, hw2, hh2, ho]

/-- C12, witness: a panel with the outline flag and one without. -/
theorem C12_background_pass_witness :
    ({ DisplayPanel.new 3 4 100 40 with
        drawPanelOutline := true, color := ⟨1⟩, textColor := ⟨2⟩ } : DisplayPanel).drawRect []
      = [DisplayCall.filled_rectangle 3 4 100 40 ⟨1⟩, DisplayCall.rectangle 3 4 100 40 ⟨2⟩] ∧
    ({ DisplayPanel.new 3 4 100 40 with color := ⟨1⟩, textColor := ⟨2⟩ }
        : DisplayPanel).drawRect []
      = [DisplayCall.filled_rectangle 3 4 100 40 ⟨1⟩] :=
  ⟨(C12_background_pass
      { DisplayPanel.new 3 4 100 40 with
        drawPanelOutline := true, color := ⟨1⟩, textColor := ⟨2⟩ } []
      rfl (by decide) (by decide)).1 rfl,
    (C12_background_pass
      { DisplayPanel.new 3 4 100 40 with color := ⟨1⟩, textColor := ⟨2⟩ } []
      rfl (by decide) (by decide)).2 rfl⟩

/-- C13.  An enabled panel with `w > 0`, `h > 0`, no image and no text line:
the content pass adds nothing, so `draw` adds only the calls of the
background pass, all of them rectangle calls; the font is never consulted:
`draw` makes no `font->measure` call (the log of measure calls is returned as
it was), no call it adds carries the font, and the result is the same for
every font and every font measurement. -/
theorem C13_empty_panel_background_only (measure : Measure) (p : DisplayPanel)
    (display : Display)
    (hen : p.enabled = true) (hw : 0 < p.w) (hh : 0 < p.h)
    (himg : p.image = none) (htext : p.text = []) :
    p.drawImageOrText measure display = display ∧
    p.draw measure display = p.drawRect display ∧
    (∀ c ∈ p.draw measure [], c.isBackground = true ∧ c.isContent = false) ∧
    (∀ (measure2 : Measure) (font2 : BaseFont),
      ({ p with font := font2 } : DisplayPanel).draw measure2 display
        = p.drawRect display) ∧
    (∀ log : FontLog, p.drawImageOrTextLogged measure display log = (display, log)) ∧
    (∀ log : FontLog, p.drawLogged measure display log = (p.drawRect display, log)) ∧
    (∀ (c : DisplayCall) (x y : Nat) (font : BaseFont) (color : Color) (align : TextAlign)
        (text : String),
      c ∈ p.draw measure [] → c ≠ DisplayCall.print x y font color align text) := by
  have hw2 : p.w ≠ 0 := by omega
  have hh2 : p.h ≠ 0 := by omega
  have hcontent : ∀ (m : Measure) (d : Display), p.drawImageOrText m d = d := by
    intro m d
    simp [drawImageOrText, hen, hw2, hh2, himg, htext]
  have hlogged : ∀ (d : Display) (log : FontLog),
      p.drawImageOrTextLogged measure d log = (d, log) := by
    intro d log
    simp [drawImageOrTextLogged, hen, hw2, hh2, himg, htext]
  have hbg : ∀ c ∈ p.draw measure [], c.isBackground = true := by
    intro c hc
    unfold draw at hc
    rw [hcontent] at hc
    exact drawRect_isBackground p c hc
  refine ⟨hcontent measure display, ?_, ?_, ?_, hlogged display, ?_, ?_⟩
  · unfold draw
    rw [hcontent]
  · intro c hc
    exact ⟨hbg c hc, isBackground_not_isContent c (hbg c hc)⟩
  · intro measure2 font2
    simp [draw, drawImageOrText, drawRect, hen, hw2, hh2, himg, htext]
  · intro log
    unfold drawLogged
    rw [hlogged]
  · intro c x y font color align text hc hprint
    have hb := hbg c hc
    rw [hprint] at hb
    cases hb

/-- C13, witness: a blank panel with the outline flag makes no measure call,
whereas the same panel with two text lines makes one. -/
theorem C13_empty_panel_background_only_witness :
    ({ DisplayPanel.new 3 4 100 40 with drawPanelOutline := true } : DisplayPanel).draw
        (fixedMeasure 10) []
      = [DisplayCall.filled_rectangle 3 4 100 40 ⟨0⟩, DisplayCall.rectangle 3 4 100 40 ⟨0⟩] ∧
    ({ DisplayPanel.new 3 4 100 40 with drawPanelOutline := true }
        : DisplayPanel).drawImageOrText (fixedMeasure 10) [] = [] ∧
    ({ DisplayPanel.new 3 4 100 40 with drawPanelOutline := true } : DisplayPanel).drawLogged
        (fixedMeasure 10) [] []
      = ([DisplayCall.filled_rectangle 3 4 100 40 ⟨0⟩, DisplayCall.rectangle 3 4 100 40 ⟨0⟩],
          []) ∧
    (({ DisplayPanel.new 3 4 100 40 with drawPanelOutline := true, text := ["a", "b"] }
        : DisplayPanel).drawLogged (fixedMeasure 10) [] []).2
      = [{ font := ⟨0⟩, text := "M" }] :=
  ⟨(C13_empty_panel_background_only (fixedMeasure 10)
      { DisplayPanel.new 3 4 100 40 with drawPanelOutline := true } []
      rfl (by decide) (by decide) rfl rfl).2.1,
    by decide,
    (C13_empty_panel_background_only (fixedMeasure 10)
      { DisplayPanel.new 3 4 100 40 with drawPanelOutline := true } []
      rfl (by decide) (by decide) rfl rfl).2.2.2.2.2.1 [],
    by decide⟩

/-- C19.  `drawAllPanels` over the one-panel list `[P]` adds exactly the calls
of `P.draw`, which are P's background pass followed by P's content pass;
`drawAllPanels` over the empty list adds no call. -/
theorem C19_drawAllPanels_singleton_and_empty (measure : Measure) (p : DisplayPanel)
    (display : Display) :
    drawAllPanels measure display [p] = p.draw measure display ∧
    p.draw measure display = display ++ p.drawRect [] ++ p.drawImageOrText measure [] ∧
    drawAllPanels measure display [] = display := by
  refine ⟨rfl, ?_, rfl⟩
  unfold draw
  rw [drawImageOrText_append, drawRect_append]

/-- C17.  On the 32-bit targets `(h - text.size() * textHeight) / 2` is
computed in unsigned arithmetic modulo `2 ^ 32` and then converted to `int`:
for every `h`, line count and `textHeight` the value given to `topPadding`
lies in `[0, 2 ^ 31 - 1]`, the clamp `topPadding >= 0 ? topPadding : 0`
leaves it unchanged, and `printMulti` runs its loop with that value. -/
theorem C17_topPadding_never_negative (h size : Nat) (textHeight : Int) :
    topPaddingInit h size textHeight
      = toInt32 (toU32 ((h : Int)
          - (toU32 ((size : Int) * (toU32 textHeight : Int)) : Int)) / 2) ∧
    0 ≤ topPaddingInit h size textHeight ∧
    topPaddingInit h size textHeight ≤ 2147483647 ∧
    (if topPaddingInit h size textHeight ≥ 0 then topPaddingInit h size textHeight else 0)
      = topPaddingInit h size textHeight ∧
    (∀ (measure : Measure) (p : DisplayPanel) (display : Display) (text : List String),
      printMulti measure p display text
        = printMultiLoop p (topPaddingInit p.h text.length (lineHeight measure p))
            (lineHeight measure p) 0 text display) := by
  have hr : ∀ (a b : Nat) (c : Int), 0 ≤ topPaddingInit a b c :=
    fun a b c => (topPaddingInit_range a b c).1
  refine ⟨rfl, hr h size textHeight, ?_, if_pos (hr h size textHeight), ?_⟩
  · have := (topPaddingInit_range h size textHeight).2
    omega
  · intro measure p display text
    unfold printMulti lineHeight
    simp only []
    rw [if_pos (hr _ _ _)]

/-! ## Lifetime, offset and log-index claims -/

theorem step_panels (measure : Measure) (logDebug : Bool) (op : Op) (s s2 : World)
    (h : step measure logDebug op s = .ok s2) : s2.panels = s.panels := by
  cases op with
  | draw i =>
    simp only [step] at h
    split at h <;> (cases h; rfl)
  | isTouchOnPanel i x y =>
    simp only [step] at h
    cases h
    rfl
  | drawAllPanels pointers =>
    simp only [step] at h
    cases h
    rfl
  | touchedPanel pointers x y =>
    simp only [step] at h
    split at h
    · cases h
      rfl
    · cases h

theorem run_panels (measure : Measure) (logDebug : Bool) :
    ∀ (ops : List Op) (s s2 : World),
      run measure logDebug ops s = .ok s2 → s2.panels = s.panels := by
  intro ops
  induction ops with
  | nil =>
    intro s s2 h
    unfold run at h
    cases h
    rfl
  | cons op rest ih =>
    intro s s2 h
    unfold run at h
    split at h
    · rename_i s3 hs3
      rw [ih s3 s2 h, step_panels measure logDebug op s s3 hs3]
    · cases h

/-- C14, counterexample.  `DisplayPanel(4294967295, 0, 2, 10)` stores
`max_x = 1`, not `x + w = 4294967297`. -/
theorem C14_max_x_wraps :
    ¬ ((DisplayPanel.new 4294967295 0 2 10).max_x = 4294967295 + 2) := by
  decide

/-- C14, amended.  For every `x, y, w, h` the constructed panel has the fields
`x, y, w, h` equal to the arguments and `max_x`, `max_y` equal to `x + w`,
`y + h` reduced modulo `2 ^ 32` (so equal to `x + w`, `y + h` when these are
below `2 ^ 32`); no sequence of the core operations `draw`, `isTouchOnPanel`,
`drawAllPanels`, `touchedPanel` changes any panel, so these equations keep
holding for a constructed panel under those operations. -/
theorem C14_geometry_for_life (x y w h : Nat) :
    (DisplayPanel.new x y w h).x = x ∧ (DisplayPanel.new x y w h).y = y ∧
    (DisplayPanel.new x y w h).w = w ∧ (DisplayPanel.new x y w h).h = h ∧
    (DisplayPanel.new x y w h).max_x = (x + w) % 4294967296 ∧
    (DisplayPanel.new x y w h).max_y = (y + h) % 4294967296 ∧
    (x + w < 4294967296 → (DisplayPanel.new x y w h).max_x = x + w) ∧
    (y + h < 4294967296 → (DisplayPanel.new x y w h).max_y = y + h) ∧
    (∀ (measure : Measure) (logDebug : Bool) (ops : List Op) (s s2 : World),
      run measure logDebug ops s = .ok s2 →
        s2.panels = s.panels ∧
        ∀ (i : Nat) (p : DisplayPanel), s.panels[i]? = some p →
          p.max_x = (p.x + p.w) % 4294967296 → p.max_y = (p.y + p.h) % 4294967296 →
          ∃ q, s2.panels[i]? = some q ∧
            q.x = p.x ∧ q.y = p.y ∧ q.w = p.w ∧ q.h = p.h ∧
            q.max_x = (q.x + q.w) % 4294967296 ∧ q.max_y = (q.y + q.h) % 4294967296) := by
  refine ⟨rfl, rfl, rfl, rfl, rfl, rfl, ?_, ?_, ?_⟩
  · intro hlt
    exact Nat.mod_eq_of_lt hlt
  · intro hlt
    exact Nat.mod_eq_of_lt hlt
  · intro measure logDebug ops s s2 hrun
    have hp := run_panels measure logDebug ops s s2 hrun
    refine ⟨hp, ?_⟩
    intro i p hi hmx hmy
    exact ⟨p, by rw [hp, hi], rfl, rfl, rfl, rfl, hmx, hmy⟩

/-- C14, witness: a panel that is drawn, hit-tested and drawn again keeps the
geometry the constructor gave it. -/
theorem C14_geometry_for_life_witness :
    (DisplayPanel.new 10 20 100 50).max_x = 110 ∧
    (DisplayPanel.new 10 20 100 50).max_y = 70 ∧
    run (fixedMeasure 10) true
        [Op.draw 0, Op.isTouchOnPanel 0 15 25, Op.drawAllPanels [0], Op.touchedPanel [0] 0 0]
        { panels := [DisplayPanel.new 10 20 100 50], display := [] }
      = .ok { panels := [DisplayPanel.new 10 20 100 50],
              display := [DisplayCall.filled_rectangle 10 20 100 50 ⟨0⟩,
                          DisplayCall.filled_rectangle 10 20 100 50 ⟨0⟩] } ∧
    ({ panels := [DisplayPanel.new 10 20 100 50],
       display := [DisplayCall.filled_rectangle 10 20 100 50 ⟨0⟩,
                   DisplayCall.filled_rectangle 10 20 100 50 ⟨0⟩] } : World).panels
      = ({ panels := [DisplayPanel.new 10 20 100 50], display := [] } : World).panels :=
  ⟨(C14_geometry_for_life 10 20 100 50).2.2.2.2.2.2.1 (by decide),
    (C14_geometry_for_life 10 20 100 50).2.2.2.2.2.2.2.1 (by decide),
    rfl,
    ((C14_geometry_for_life 10 20 100 50).2.2.2.2.2.2.2.2 (fixedMeasure 10) true
      [Op.draw 0, Op.isTouchOnPanel 0 15 25, Op.drawAllPanels [0], Op.touchedPanel [0] 0 0]
      { panels := [DisplayPanel.new 10 20 100 50], display := [] }
      { panels := [DisplayPanel.new 10 20 100 50],
        display := [DisplayCall.filled_rectangle 10 20 100 50 ⟨0⟩,
                    DisplayCall.filled_rectangle 10 20 100 50 ⟨0⟩] }
      rfl).1⟩

/-- C15, at the failing input.  Two lines in a panel of height 40 with a font
of measured height 10: with `fontHeightOffset = 0` the lines are printed at
vertical positions 10 and 20 (distance 10), with `fontHeightOffset = 2` at 8
and 20 (distance 12), and with `fontHeightOffset = -2` at 12 and 20 (distance
8): increasing the offset moves the lines further apart. -/
theorem C15_offset_increases_line_distance :
    ({ DisplayPanel.new 0 0 100 40 with text := ["a", "b"], fontHeightOffset := 0 }
        : DisplayPanel).drawImageOrText (fixedMeasure 10) []
      = [DisplayCall.print 50 10 ⟨0⟩ ⟨0⟩ TextAlign.TOP_CENTER "a",
         DisplayCall.print 50 20 ⟨0⟩ ⟨0⟩ TextAlign.TOP_CENTER "b"] ∧
    ({ DisplayPanel.new 0 0 100 40 with text := ["a", "b"], fontHeightOffset := 2 }
        : DisplayPanel).drawImageOrText (fixedMeasure 10) []
      = [DisplayCall.print 50 8 ⟨0⟩ ⟨0⟩ TextAlign.TOP_CENTER "a",
         DisplayCall.print 50 20 ⟨0⟩ ⟨0⟩ TextAlign.TOP_CENTER "b"] ∧
    ({ DisplayPanel.new 0 0 100 40 with text := ["a", "b"], fontHeightOffset := -2 }
        : DisplayPanel).drawImageOrText (fixedMeasure 10) []
      = [DisplayCall.print 50 12 ⟨0⟩ ⟨0⟩ TextAlign.TOP_CENTER "a",
         DisplayCall.print 50 20 ⟨0⟩ ⟨0⟩ TextAlign.TOP_CENTER "b"] ∧
    lineHeight (fixedMeasure 10)
        { DisplayPanel.new 0 0 100 40 with text := ["a", "b"], fontHeightOffset := 2 }
      = 12 := by
  refine ⟨?_, ?_, ?_, ?_⟩ <;> decide

/-- C16.  With debug logging compiled in, `touchedPanel` reads `text[0]` of
the first panel that passes `isTouchOnPanel`: the call ends in the
out-of-range index exactly when that panel has no text line, so the read is
in range if and only if the first match has at least one line; when every
enabled and touchable panel of the list has a text line, the out-of-range
branch is not reached (with or without logging). -/
theorem C16_text_index_in_range_iff (panels : List DisplayPanel) (tpX tpY : Int) :
    (touchedPanel true panels tpX tpY = .error Fault.textIndexOutOfRange ↔
      ∃ p, panels.find? (fun q => q.isTouchOnPanel tpX tpY) = some p ∧ p.text = []) ∧
    (∀ p, panels.find? (fun q => q.isTouchOnPanel tpX tpY) = some p →
      (touchedPanel true panels tpX tpY ≠ .error Fault.textIndexOutOfRange ↔
        0 < p.text.length)) ∧
    ((∀ p ∈ panels, p.enabled = true → p.touchable = true → p.text ≠ []) →
      ∀ logDebug : Bool,
        touchedPanel logDebug panels tpX tpY ≠ .error Fault.textIndexOutOfRange) := by
  have herr := fun (b : Bool) => touchedPanelFrom_error_iff b tpX tpY panels 0
  refine ⟨?_, ?_, ?_⟩
  · unfold touchedPanel
    rw [herr true]
    simp
  · intro p hp
    unfold touchedPanel
    rw [Ne, herr true, hp]
    simp [List.length_pos]
  · intro hpre logDebug hfault
    unfold touchedPanel at hfault
    obtain ⟨-, p, hp, hempty⟩ := (herr logDebug).mp hfault
    have hmem : p ∈ panels := List.mem_of_find?_eq_some hp
    have htouch : p.isTouchOnPanel tpX tpY = true := by
      simpa using List.find?_some hp
    obtain ⟨hen, hto, -, -⟩ := (isTouchOnPanel_eq_true_iff p tpX tpY).mp htouch
    exact hpre p hmem hen hto hempty

/-- C16, witness: an image-only panel listed first faults, and a list whose
panels all have a text line does not. -/
theorem C16_text_index_in_range_iff_witness :
    touchedPanel true
        [{ DisplayPanel.new 0 0 100 100 with image := some ⟨1⟩ },
          { DisplayPanel.new 0 0 100 100 with text := ["B"] }] 50 50
      = .error Fault.textIndexOutOfRange ∧
    (∀ p ∈ [{ DisplayPanel.new 0 0 100 100 with text := ["A"] },
            { DisplayPanel.new 200 0 100 100 with text := ["B"] }],
      p.enabled = true → p.touchable = true → p.text ≠ []) ∧
    touchedPanel true
        [{ DisplayPanel.new 0 0 100 100 with text := ["A"] },
          { DisplayPanel.new 200 0 100 100 with text := ["B"] }] 250 50
      ≠ .error Fault.textIndexOutOfRange :=
  ⟨(C16_text_index_in_range_iff
      [{ DisplayPanel.new 0 0 100 100 with image := some ⟨1⟩ },
        { DisplayPanel.new 0 0 100 100 with text := ["B"] }] 50 50).1.mpr
      ⟨{ DisplayPanel.new 0 0 100 100 with image := some ⟨1⟩ }, by decide, rfl⟩,
    by decide,
    (C16_text_index_in_range_iff
      [{ DisplayPanel.new 0 0 100 100 with text := ["A"] },
        { DisplayPanel.new 200 0 100 100 with text := ["B"] }] 250 50).2.2
      (by decide) true⟩

end DisplayPanelSpec
